import Mathlib

set_option maxRecDepth 4000

/-!
Shallow embedding of the BerryDB page pool (src/page_pool.cc, page_pool.h,
page.h, store_impl.h) and of the store collaborators it depends on.

Buffers are identified by a natural-number handle (the order of creation by
AllocPage); the three intrusive lists become lists of handles, the identity
map becomes an association list, and the per-buffer control block
(pin count, identity, dirty flag) becomes a record.  Pin counts are C++
size_t values, modelled as naturals reduced modulo 2^64.  Page data is
abstracted to a single token per buffer: reads copy the store file's token
into the buffer, writes copy the buffer's token to the file.

The data file behind a store is modelled together with the test fixture
BlockAccessFileWrapper (src/test/block_access_file_wrapper.h): an
accessError flag makes every read and write return kIoError, exactly as the
wrapper's SetAccessError(kIoError) does.

The bodies of StoreImpl::ReadPage, StoreImpl::WritePage and
StoreImpl::Close are not part of the sources (only store_impl.h and the
unit tests are); those three are modelled from the specification and are
marked as such in their doc comments.  Everything else is translated from
src/page_pool.cc and the inline bodies in page.h / store_impl.h.

Fields of the C++ classes that no claim mentions (page_shift, page_size,
the reserved log_list, the transaction list) are omitted.
-/

namespace BerryDB

abbrev BufId := Nat
abbrev StoreId := Nat
abbrev PageId := Nat

/-- Status codes surfaced by the page pool (berrydb/status.h subset). -/
inductive Status where
  | kSuccess
  | kIoError
  | kPoolFull
  deriving DecidableEq, Repr

/-- 2 ^ 64, the modulus of the C++ size_t fields (pin counts). -/
def kSizeTMod : Nat := 18446744073709551616

/-- 2 ^ 64 - 1: adding it modulo 2 ^ 64 is the size_t decrement. -/
def kSizeTMax : Nat := 18446744073709551615

/-- The 0xCD byte pattern FetchStorePage fills ignored pages with when
runtime checks are enabled (page_pool.cc, FetchStorePage). -/
def kDebugPattern : Nat := 205

/-- Control block of a page pool entry (page.h, class Page): pin count,
identity (none when unassigned, some (store, page id) when assigned),
dirty flag, and the abstract content of the page data buffer. -/
structure Page where
  pinCount : Nat
  assigned : Option (StoreId × PageId)
  isDirty : Bool
  data : Nat
  deriving DecidableEq, Repr

/-- Page::AddPin: increments the pin count (a size_t, hence the modulus). -/
def Page.addPin (p : Page) : Page :=
  { p with pinCount := (p.pinCount + 1) % kSizeTMod }

/-- Page::RemovePin: decrements the pin count (size_t wrap-around on 0). -/
def Page.removePin (p : Page) : Page :=
  { p with pinCount := (p.pinCount + kSizeTMax) % kSizeTMod }

/-- Page::IsUnpinned. -/
def Page.isUnpinned (p : Page) : Bool := p.pinCount == 0

/-- Page::Create: a freshly created pool entry; per the page.h contract the
returned page has one pin on it, owned by the caller. -/
def Page.create : Page :=
  { pinCount := 1, assigned := none, isDirty := false, data := 0 }

/-- The control block of a buffer handle that was never created. -/
def Page.unborn : Page :=
  { pinCount := 0, assigned := none, isDirty := false, data := 0 }

/-- StoreImpl lifecycle states (store_impl.h, enum class State). -/
inductive StoreLifecycle where
  | kOpen
  | kClosing
  | kClosed
  deriving DecidableEq, Repr

/-- The store-side state the page pool interacts with (store_impl.h):
the data file (page id to content token), the injected I/O error flag of
the test BlockAccessFileWrapper, the lifecycle state, and the pool_pages_
list of pool buffers assigned to this store. -/
structure StoreImpl where
  file : PageId → Nat
  accessError : Bool
  state : StoreLifecycle
  poolPages : List BufId

/-- PagePool::PageFetchMode (page_pool.h). -/
inductive PageFetchMode where
  | kFetchPageData
  | kIgnorePageData
  deriving DecidableEq, Repr

/-- The whole mutable state the claims range over: the PagePool fields
(page_pool.h) together with the states of all stores. -/
structure PagePool where
  pageCapacity : Nat
  pageCount : Nat
  freeList : List BufId
  lruList : List BufId
  pageMap : List ((StoreId × PageId) × BufId)
  pages : BufId → Page
  stores : StoreId → StoreImpl

/-- Point update of one buffer's control block. -/
def updPage (st : PagePool) (b : BufId) (f : Page → Page) : PagePool :=
  { st with pages := fun i => if i = b then f (st.pages i) else st.pages i }

/-- Point update of one store's state. -/
def updStore (st : PagePool) (s : StoreId) (f : StoreImpl → StoreImpl) : PagePool :=
  { st with stores := fun i => if i = s then f (st.stores i) else st.stores i }

/-- Lookup in the identity map (std::unordered_map find). -/
def mapFind (k : StoreId × PageId) :
    List ((StoreId × PageId) × BufId) → Option BufId
  | [] => none
  | (k2, b) :: rest => if k2 = k then some b else mapFind k rest

/-- Erasure from the identity map (std::unordered_map erase). -/
def mapErase (k : StoreId × PageId) :
    List ((StoreId × PageId) × BufId) → List ((StoreId × PageId) × BufId)
  | [] => []
  | (k2, b) :: rest =>
      if k2 = k then mapErase k rest else (k2, b) :: mapErase k rest

/-- The store a buffer is assigned to (Page::store; meaningful only while
the buffer is assigned). -/
def storeOf (st : PagePool) (b : BufId) : StoreId :=
  ((st.pages b).assigned.getD (0, 0)).1

/-- The page id a buffer is assigned to (Page::page_id; meaningful only
while the buffer is assigned). -/
def pageIdOf (st : PagePool) (b : BufId) : PageId :=
  ((st.pages b).assigned.getD (0, 0)).2

/-- Modelled from the spec: StoreImpl::WritePage, whose body is not among
the sources.  Writes page_size bytes from the buffer to offset
page_id * page_size of the data file; with an injected access error the
call performs no write and returns kIoError (per the BlockAccessFileWrapper
contract).  The caller is responsible for clearing the dirty flag. -/
def writePage (st : PagePool) (s : StoreId) (b : BufId) : Status × PagePool :=
  if (st.stores s).accessError then (Status.kIoError, st)
  else
    (Status.kSuccess,
      updStore st s (fun ss =>
        { ss with file := fun pid =>
            if pid = pageIdOf st b then (st.pages b).data else ss.file pid }))

/-- Modelled from the spec: StoreImpl::ReadPage, whose body is not among
the sources.  Reads page_size bytes at offset page_id * page_size of the
data file into the buffer and leaves the page clean; with an injected
access error the call returns kIoError and changes nothing. -/
def readPage (st : PagePool) (s : StoreId) (b : BufId) : Status × PagePool :=
  if (st.stores s).accessError then (Status.kIoError, st)
  else
    (Status.kSuccess,
      updPage st b (fun p =>
        { p with data := (st.stores s).file (pageIdOf st b), isDirty := false }))

/-- Modelled from the spec: one drain step of StoreImpl::Close on a store
already marked Closing.  The resident buffer is removed from the LRU list
(it is unpinned there), its identity map entry is erased, a dirty page is
written back with any I/O error tolerated (closing is already terminal, so
no further close cascades), its identity is cleared, it is removed from the
store's pool_pages list, and an unpinned buffer is pushed onto the free
list. -/
def closeStorePageStep (st : PagePool) (b : BufId) : PagePool :=
  let s := storeOf st b
  let pid := pageIdOf st b
  let st1 := { st with lruList := st.lruList.filter (fun x => x != b),
                       pageMap := mapErase (s, pid) st.pageMap }
  let st2 := if (st1.pages b).isDirty then (writePage st1 s b).2 else st1
  let st3 := updPage st2 b (fun p => { p with isDirty := false, assigned := none })
  let st4 := updStore st3 s (fun ss =>
      { ss with poolPages := ss.poolPages.filter (fun x => x != b) })
  if (st4.pages b).isUnpinned then { st4 with freeList := st4.freeList ++ [b] }
  else st4

/-- Drain loop of StoreImpl::Close over a snapshot of pool_pages_. -/
def drainPoolPages (st : PagePool) : List BufId → PagePool
  | [] => st
  | b :: rest => drainPoolPages (closeStorePageStep st b) rest

/-- Modelled from the spec: StoreImpl::Close, whose body is not among the
sources.  Transitions Open to Closing, walks pool_pages_ unassigning every
entry, then sets Closed.  A second entry on a Closing or Closed store is a
no-op, which makes the re-entrant call from UnassignPageFromStore
terminate. -/
def storeClose (st : PagePool) (s : StoreId) : PagePool :=
  match (st.stores s).state with
  | StoreLifecycle.kOpen =>
      let st1 := updStore st s (fun ss => { ss with state := StoreLifecycle.kClosing })
      let st2 := drainPoolPages st1 (st1.stores s).poolPages
      updStore st2 s (fun ss => { ss with state := StoreLifecycle.kClosed })
  | StoreLifecycle.kClosing => st
  | StoreLifecycle.kClosed => st

/-- BlockAccessFileWrapper::SetAccessError on a store's data file. -/
def setAccessError (st : PagePool) (s : StoreId) (e : Bool) : PagePool :=
  updStore st s (fun ss => { ss with accessError := e })

/-- Page::MarkDirty (page.h). -/
def markDirty (st : PagePool) (b : BufId) (flag : Bool) : PagePool :=
  updPage st b (fun p => { p with isDirty := flag })

/-- PagePool::UnpinStorePage (page_pool.cc lines 43-53): remove one pin;
if the count reaches zero, append the buffer to the tail of the LRU
list. -/
def unpinStorePage (st : PagePool) (b : BufId) : PagePool :=
  let st1 := updPage st b Page.removePin
  if (st1.pages b).isUnpinned then { st1 with lruList := st1.lruList ++ [b] }
  else st1

/-- PagePool::UnpinUnassignedPage (page_pool.cc lines 55-65): remove one
pin; if the count reaches zero, push_back the buffer onto the free
list. -/
def unpinUnassignedPage (st : PagePool) (b : BufId) : PagePool :=
  let st1 := updPage st b Page.removePin
  if (st1.pages b).isUnpinned then { st1 with freeList := st1.freeList ++ [b] }
  else st1

/-- PagePool::UnassignPageFromStore (page_pool.cc lines 67-85): if the
page is dirty, write it back, clear the dirty flag, clear the identity, and
force the owning store to Close() when the write failed; otherwise just
clear the identity.  Note that the source does not call
StoreImpl::PageUnassigned anywhere on this path. -/
def unassignPageFromStore (st : PagePool) (b : BufId) : PagePool :=
  if (st.pages b).isDirty then
    let s := storeOf st b
    let w := writePage st s b
    let st2 := updPage w.2 b (fun p => { p with isDirty := false, assigned := none })
    if w.1 ≠ Status.kSuccess then storeClose st2 s else st2
  else
    updPage st b (fun p => { p with assigned := none })

/-- PagePool::AllocPage (page_pool.cc lines 87-117): pop the front of the
free list, else evict the front of the LRU list (erasing its identity map
entry, pinning it, and unassigning it from its store), else create a new
buffer while below capacity, else fail. -/
def allocPage (st : PagePool) : Option BufId × PagePool :=
  match st.freeList with
  | b :: rest =>
      (some b, updPage { st with freeList := rest } b Page.addPin)
  | [] =>
    match st.lruList with
    | b :: rest =>
        let key := (st.pages b).assigned.getD (0, 0)
        let st1 := { st with lruList := rest, pageMap := mapErase key st.pageMap }
        let st2 := updPage st1 b Page.addPin
        (some b, unassignPageFromStore st2 b)
    | [] =>
        if st.pageCount < st.pageCapacity then
          (some st.pageCount,
            { st with pageCount := st.pageCount + 1,
                      pages := fun i =>
                        if i = st.pageCount then Page.create else st.pages i })
        else (none, st)

/-- PagePool::FetchStorePage (page_pool.cc lines 119-138): dispatch to
StoreImpl::ReadPage, or mark the buffer dirty and fill it with the debug
pattern without touching the data file. -/
def fetchStorePage (st : PagePool) (b : BufId) (mode : PageFetchMode) :
    Status × PagePool :=
  match mode with
  | PageFetchMode.kFetchPageData => readPage st (storeOf st b) b
  | PageFetchMode.kIgnorePageData =>
      (Status.kSuccess,
        updPage st b (fun p => { p with isDirty := true, data := kDebugPattern }))

/-- PagePool::AssignPageToStore (page_pool.cc lines 140-163): set the
buffer's identity, fetch, and on success insert the identity map entry; on
fetch failure clear the identity and hand the buffer to
UnpinUnassignedPage.  Note that the source never calls
StoreImpl::PageAssigned or StoreImpl::PageUnassigned here. -/
def assignPageToStore (st : PagePool) (b : BufId) (s : StoreId) (pid : PageId)
    (mode : PageFetchMode) : Status × PagePool :=
  let st1 := updPage st b (fun p => { p with assigned := some (s, pid) })
  let f := fetchStorePage st1 b mode
  if f.1 = Status.kSuccess then
    (Status.kSuccess, { f.2 with pageMap := ((s, pid), b) :: f.2.pageMap })
  else
    let st3 := updPage f.2 b (fun p => { p with assigned := none })
    (f.1, unpinUnassignedPage st3 b)

/-- PagePool::StorePage (page_pool.cc lines 165-192): on an identity map
hit, return the cached buffer (the source adds no pin on this path); on a
miss, allocate a buffer, failing with kPoolFull when none is available, and
assign it.  The middle component models the result out-parameter, which the
source leaves unset on failure. -/
def storePage (st : PagePool) (s : StoreId) (pid : PageId)
    (mode : PageFetchMode) : Status × Option BufId × PagePool :=
  match mapFind (s, pid) st.pageMap with
  | some b => (Status.kSuccess, some b, st)
  | none =>
    let a := allocPage st
    match a.1 with
    | none => (Status.kPoolFull, none, a.2)
    | some b =>
      let r := assignPageToStore a.2 b s pid mode
      if r.1 = Status.kSuccess then (r.1, some b, r.2) else (r.1, none, r.2)

/-- PagePool::allocated_pages (page_pool.h). -/
def allocatedPages (st : PagePool) : Nat := st.pageCount

/-- PagePool::unused_pages (page_pool.h). -/
def unusedPages (st : PagePool) : Nat := st.freeList.length

/-- PagePool::pinned_pages (page_pool.h). -/
def pinnedPages (st : PagePool) : Nat :=
  st.pageCount - st.freeList.length - st.lruList.length

/-- A freshly constructed pool with the given capacity, together with
freshly created stores; ef chooses which stores have the
BlockAccessFileWrapper error injection armed from the start. -/
def mkPool (cap : Nat) (ef : StoreId → Bool) : PagePool :=
  { pageCapacity := cap
    pageCount := 0
    freeList := []
    lruList := []
    pageMap := []
    pages := fun _ => Page.unborn
    stores := fun s =>
      { file := fun _ => 0, accessError := ef s,
        state := StoreLifecycle.kOpen, poolPages := [] } }

/-- Error-flag assignment arming no store with an injected I/O error. -/
def efNone : StoreId → Bool := fun _ => false

/-- Error-flag assignment arming every store with an injected I/O error. -/
def efAll : StoreId → Bool := fun _ => true

/-- First call of the cache-hit scenario: StorePage(s, 0, kIgnorePageData)
on a fresh pool of capacity 1. -/
def hitTrace1 : Status × Option BufId × PagePool :=
  storePage (mkPool 1 efNone) 0 0 PageFetchMode.kIgnorePageData

/-- Second call of the cache-hit scenario: StorePage(s, 0, kFetchPageData)
made while still holding the first call's pin. -/
def hitTrace2 : Status × Option BufId × PagePool :=
  storePage hitTrace1.2.2 0 0 PageFetchMode.kFetchPageData

/-- Free-list order scenario: create two buffers, then unpin buffer 0
followed by buffer 1, so buffer 1 is the most recently freed. -/
def fifoTrace : PagePool :=
  let u1 := (allocPage (mkPool 2 efNone)).2
  let u2 := (allocPage u1).2
  unpinUnassignedPage (unpinUnassignedPage u2 0) 1

/-- Store-close scenario, first phase (as in the CloseUnassignsPages unit
test): allocate four buffers from a fresh pool of capacity 16. -/
def c9Alloc : PagePool :=
  (allocPage (allocPage (allocPage (allocPage (mkPool 16 efNone)).2).2).2).2

/-- Store-close scenario, one assignment: assign buffer b to (store 0,
page pid) without reading, mark it clean, and unpin it into the LRU. -/
def c9AssignOne (st : PagePool) (b : BufId) (pid : PageId) : PagePool :=
  unpinStorePage
    (markDirty (assignPageToStore st b 0 pid PageFetchMode.kIgnorePageData).2 b false) b

/-- Store-close scenario before the close: four clean resident pages of
store 0, all unpinned, sitting in the LRU. -/
def c9Ready : PagePool :=
  c9AssignOne (c9AssignOne (c9AssignOne (c9AssignOne c9Alloc 0 0) 1 1) 2 2) 3 3

/-- Store-close scenario after store 0 is closed. -/
def c9Closed : PagePool := storeClose c9Ready 0

/-- A capacity-1 pool whose only buffer is an unpinned dirty LRU resident
of (store 0, page 0) with content 42; err arms the write error. -/
def dirtyVictimPool (err : Bool) : PagePool :=
  { pageCapacity := 1, pageCount := 1, freeList := [], lruList := [0],
    pageMap := [((0, 0), 0)],
    pages := fun _ =>
      { pinCount := 0, assigned := some (0, 0), isDirty := true, data := 42 },
    stores := fun _ =>
      { file := fun _ => 0, accessError := err,
        state := StoreLifecycle.kOpen, poolPages := [] } }

/-- One public page-pool transition, guarded by the DCHECK preconditions of
the source (a trace violating a DCHECK is a fatal programming error per the
spec, so it generates no step).  setAccessError models the test fixture
arming or clearing the injected I/O error between calls. -/
inductive Step : PagePool → PagePool → Prop where
  | stepStorePage (st : PagePool) (s : StoreId) (pid : PageId)
      (mode : PageFetchMode) : Step st (storePage st s pid mode).2.2
  | stepAllocPage (st : PagePool) : Step st (allocPage st).2
  | stepUnpinStorePage (st : PagePool) (b : BufId)
      (ha : (st.pages b).assigned ≠ none) (hp : (st.pages b).pinCount ≠ 0) :
      Step st (unpinStorePage st b)
  | stepUnpinUnassignedPage (st : PagePool) (b : BufId)
      (ha : (st.pages b).assigned = none) (hp : (st.pages b).pinCount ≠ 0) :
      Step st (unpinUnassignedPage st b)
  | stepUnassignPageFromStore (st : PagePool) (b : BufId)
      (ha : (st.pages b).assigned ≠ none) (hp : (st.pages b).pinCount ≠ 0) :
      Step st (unassignPageFromStore st b)
  | stepMarkDirty (st : PagePool) (b : BufId) (flag : Bool)
      (ha : (st.pages b).assigned ≠ none) :
      Step st (markDirty st b flag)
  | stepStoreClose (st : PagePool) (s : StoreId) : Step st (storeClose st s)
  | stepSetAccessError (st : PagePool) (s : StoreId) (e : Bool) :
      Step st (setAccessError st s e)

/-- States reachable from a freshly constructed pool through the guarded
public transitions. -/
inductive Reachable : PagePool → Prop where
  | init (cap : Nat) (ef : StoreId → Bool) : Reachable (mkPool cap ef)
  | step {st st2 : PagePool} : Reachable st → Step st st2 → Reachable st2

/-- The inductive state invariant of the pool: buffers on the free and LRU
lists are unpinned, no buffer sits on the lists twice, list members are
created buffers, never-created buffer handles are blank, the pool never
exceeds its capacity, pin counts are size_t values, and (a consequence of
the sources never calling StoreImpl::PageAssigned) every store's
pool_pages list is empty. -/
structure Inv (st : PagePool) : Prop where
  freePin : ∀ b ∈ st.freeList, (st.pages b).pinCount = 0
  lruPin : ∀ b ∈ st.lruList, (st.pages b).pinCount = 0
  nodup : (st.freeList ++ st.lruList).Nodup
  freeLt : ∀ b ∈ st.freeList, b < st.pageCount
  lruLt : ∀ b ∈ st.lruList, b < st.pageCount
  fresh : ∀ b, st.pageCount ≤ b → st.pages b = Page.unborn
  poolPagesNil : ∀ s, (st.stores s).poolPages = []
  countLe : st.pageCount ≤ st.pageCapacity
  pinLt : ∀ b, (st.pages b).pinCount < kSizeTMod

/-!
Helper lemmas about the identity map.
-/

theorem mapFind_mapErase_self (k : StoreId × PageId)
    (m : List ((StoreId × PageId) × BufId)) :
    mapFind k (mapErase k m) = none := by
  induction m with
  | nil => rfl
  | cons hd tl ih =>
    obtain ⟨k2, b⟩ := hd
    by_cases h : k2 = k
    · simpa [mapErase, h] using ih
    · simpa [mapErase, mapFind, h] using ih

theorem mapFind_mapErase_of_none (k k2 : StoreId × PageId)
    (m : List ((StoreId × PageId) × BufId)) (h : mapFind k m = none) :
    mapFind k (mapErase k2 m) = none := by
  induction m with
  | nil => rfl
  | cons hd tl ih =>
    obtain ⟨k3, b⟩ := hd
    by_cases h3 : k3 = k
    · simp [mapFind, h3] at h
    · by_cases h4 : k3 = k2
      · simp [mapFind, h3] at h
        simpa [mapErase, h4] using ih h
      · simp [mapFind, h3] at h
        simpa [mapErase, mapFind, h3, h4] using ih h

/-!
Arithmetic facts about size_t pin counts and small record facts.
-/

theorem addPin_pinCount (p : Page) (h : p.pinCount + 1 < kSizeTMod) :
    (Page.addPin p).pinCount = p.pinCount + 1 := by
  simp only [Page.addPin]
  exact Nat.mod_eq_of_lt h

theorem removePin_pinCount (p : Page) (h0 : p.pinCount ≠ 0)
    (h : p.pinCount < kSizeTMod) :
    (Page.removePin p).pinCount = p.pinCount - 1 := by
  simp only [Page.removePin, kSizeTMod, kSizeTMax] at h ⊢
  omega

theorem addPin_pinLt (p : Page) : (Page.addPin p).pinCount < kSizeTMod := by
  simp only [Page.addPin, kSizeTMod]
  omega

theorem removePin_pinLt (p : Page) : (Page.removePin p).pinCount < kSizeTMod := by
  simp only [Page.removePin, kSizeTMod, kSizeTMax]
  omega

theorem addPin_assigned (p : Page) : (Page.addPin p).assigned = p.assigned := rfl

theorem addPin_isDirty (p : Page) : (Page.addPin p).isDirty = p.isDirty := rfl

theorem addPin_data (p : Page) : (Page.addPin p).data = p.data := rfl

theorem removePin_assigned (p : Page) :
    (Page.removePin p).assigned = p.assigned := by
  cases p
  rfl

theorem unborn_pinCount : Page.unborn.pinCount = 0 := rfl

theorem updPage_pages_self (st : PagePool) (b : BufId) (f : Page → Page) :
    (updPage st b f).pages b = f (st.pages b) := by
  simp [updPage]

theorem updPage_pages_ne (st : PagePool) (b i : BufId) (f : Page → Page)
    (h : i ≠ b) : (updPage st b f).pages i = st.pages i := by
  simp [updPage, h]

theorem updPage_freeList (st : PagePool) (b : BufId) (f : Page → Page) :
    (updPage st b f).freeList = st.freeList := rfl

theorem updPage_lruList (st : PagePool) (b : BufId) (f : Page → Page) :
    (updPage st b f).lruList = st.lruList := rfl

theorem updPage_pageCount (st : PagePool) (b : BufId) (f : Page → Page) :
    (updPage st b f).pageCount = st.pageCount := rfl

theorem updPage_pageCapacity (st : PagePool) (b : BufId) (f : Page → Page) :
    (updPage st b f).pageCapacity = st.pageCapacity := rfl

theorem updPage_pageMap (st : PagePool) (b : BufId) (f : Page → Page) :
    (updPage st b f).pageMap = st.pageMap := rfl

theorem updPage_stores (st : PagePool) (b : BufId) (f : Page → Page) :
    (updPage st b f).stores = st.stores := rfl

/-- The length of the two lists together never exceeds the number of
created buffers: they are disjoint, duplicate-free lists of buffer handles
below pageCount. -/
theorem inv_lengths_le (st : PagePool) (hInv : Inv st) :
    st.freeList.length + st.lruList.length ≤ st.pageCount := by
  have hsub : (st.freeList ++ st.lruList).toFinset ⊆ Finset.range st.pageCount := by
    intro x hx
    rw [List.mem_toFinset, List.mem_append] at hx
    rw [Finset.mem_range]
    rcases hx with hx | hx
    · exact hInv.freeLt x hx
    · exact hInv.lruLt x hx
  have hcard := Finset.card_le_card hsub
  rw [Finset.card_range, List.toFinset_card_of_nodup hInv.nodup,
      List.length_append] at hcard
  exact hcard

/-!
Field-preservation lemmas: with every pool_pages list empty (which the
sources guarantee, never calling StoreImpl::PageAssigned), Close and
UnassignPageFromStore leave the pool's lists, counters, map and pin counts
untouched.
-/

theorem storeClose_fields (st : PagePool) (s : StoreId)
    (hpp : ∀ s2, (st.stores s2).poolPages = []) :
    (storeClose st s).pageCapacity = st.pageCapacity ∧
    (storeClose st s).pageCount = st.pageCount ∧
    (storeClose st s).freeList = st.freeList ∧
    (storeClose st s).lruList = st.lruList ∧
    (storeClose st s).pageMap = st.pageMap ∧
    (storeClose st s).pages = st.pages ∧
    (∀ s2, ((storeClose st s).stores s2).poolPages = []) ∧
    (∀ s2, ((storeClose st s).stores s2).accessError = (st.stores s2).accessError) := by
  unfold storeClose
  cases hs : (st.stores s).state with
  | kOpen =>
    have hdrain :
        ((updStore st s (fun ss => { ss with state := StoreLifecycle.kClosing })).stores s).poolPages = [] := by
      simp [updStore, hpp]
    simp only [hdrain, drainPoolPages]
    refine ⟨rfl, rfl, rfl, rfl, rfl, rfl, ?_, ?_⟩
    · intro s2
      by_cases h2 : s2 = s <;> simp [updStore, h2, hpp]
    · intro s2
      by_cases h2 : s2 = s <;> simp [updStore, h2]
  | kClosing => exact ⟨rfl, rfl, rfl, rfl, rfl, rfl, hpp, fun _ => rfl⟩
  | kClosed => exact ⟨rfl, rfl, rfl, rfl, rfl, rfl, hpp, fun _ => rfl⟩

theorem unassignPageFromStore_fields (st : PagePool) (b : BufId)
    (hpp : ∀ s2, (st.stores s2).poolPages = []) :
    (unassignPageFromStore st b).pageCapacity = st.pageCapacity ∧
    (unassignPageFromStore st b).pageCount = st.pageCount ∧
    (unassignPageFromStore st b).freeList = st.freeList ∧
    (unassignPageFromStore st b).lruList = st.lruList ∧
    (unassignPageFromStore st b).pageMap = st.pageMap ∧
    (∀ i, ((unassignPageFromStore st b).pages i).pinCount = (st.pages i).pinCount) ∧
    (∀ i, i ≠ b → (unassignPageFromStore st b).pages i = st.pages i) ∧
    ((unassignPageFromStore st b).pages b).assigned = none ∧
    (∀ s2, ((unassignPageFromStore st b).stores s2).poolPages = []) ∧
    (∀ s2, ((unassignPageFromStore st b).stores s2).accessError = (st.stores s2).accessError) := by
  unfold unassignPageFromStore
  cases hd : (st.pages b).isDirty with
  | false =>
    simp only [Bool.false_eq_true, if_false]
    refine ⟨rfl, rfl, rfl, rfl, rfl, ?_, ?_, ?_, hpp, fun _ => rfl⟩
    · intro i
      by_cases h2 : i = b <;> simp [updPage, h2]
    · intro i h2
      simp [updPage, h2]
    · simp [updPage]
  | true =>
    simp only [if_true]
    by_cases he : (st.stores (storeOf st b)).accessError
    · have hw : writePage st (storeOf st b) b = (Status.kIoError, st) := by
        simp [writePage, he]
      rw [hw]
      simp only [ne_eq, reduceCtorEq, not_false_eq_true, if_true]
      have hpp2 : ∀ s2,
          ((updPage st b (fun p => { p with isDirty := false, assigned := none })).stores s2).poolPages = [] := by
        intro s2
        simpa [updPage] using hpp s2
      obtain ⟨h1, h2, h3, h4, h5, h6, h7, h8⟩ :=
        storeClose_fields
          (updPage st b (fun p => { p with isDirty := false, assigned := none }))
          (storeOf st b) hpp2
      rw [h6]
      refine ⟨h1, h2, h3, h4, h5, ?_, ?_, ?_, h7, ?_⟩
      · intro i
        by_cases h9 : i = b <;> simp [updPage, h9]
      · intro i h9
        simp [updPage, h9]
      · simp [updPage]
      · intro s2
        rw [h8 s2]
        simp [updPage]
    · have hw : writePage st (storeOf st b) b =
          (Status.kSuccess,
            updStore st (storeOf st b) (fun ss =>
              { ss with file := fun pid =>
                  if pid = pageIdOf st b then (st.pages b).data else ss.file pid })) := by
        simp [writePage, he]
      rw [hw]
      simp only [ne_eq, not_true_eq_false, if_false, not_not]
      refine ⟨rfl, rfl, rfl, rfl, rfl, ?_, ?_, ?_, ?_, ?_⟩
      · intro i
        by_cases h2 : i = b <;> simp [updPage, updStore, h2]
      · intro i h2
        simp [updPage, updStore, h2]
      · simp [updPage]
      · intro s2
        by_cases h2 : s2 = (storeOf st b) <;> simp [updPage, updStore, h2, hpp]
      · intro s2
        by_cases h2 : s2 = (storeOf st b) <;> simp [updPage, updStore, h2]

/-- When AllocPage fails, it has changed nothing, both lists are empty,
and there is no growth room. -/
theorem allocPage_none_spec (st : PagePool) (h : (allocPage st).1 = none) :
    (allocPage st).2 = st ∧ st.freeList = [] ∧ st.lruList = [] ∧
    ¬st.pageCount < st.pageCapacity := by
  unfold allocPage at h ⊢
  cases hf : st.freeList with
  | cons b0 rest =>
    rw [hf] at h
    simp at h
  | nil =>
    rw [hf] at h
    cases hl : st.lruList with
    | cons b0 rest =>
      rw [hl] at h
      simp at h
    | nil =>
      rw [hl] at h
      by_cases hc : st.pageCount < st.pageCapacity
      · simp only [if_pos hc] at h
        simp at h
      · simp only [if_neg hc] at h ⊢
        exact ⟨trivial, trivial, trivial, hc⟩

/-- When AllocPage succeeds on an invariant-satisfying state, the
invariant is preserved, the returned buffer carries exactly one pin, is a
created buffer, sits on neither list, the capacity and the stores' error
flags are untouched, the pinned-page count grows by exactly one, and no
absent identity-map key becomes present. -/
theorem allocPage_some_spec (st : PagePool) (hInv : Inv st) (b : BufId)
    (hb : (allocPage st).1 = some b) :
    Inv (allocPage st).2 ∧
    ((allocPage st).2.pages b).pinCount = 1 ∧
    b < (allocPage st).2.pageCount ∧
    b ∉ (allocPage st).2.freeList ∧
    b ∉ (allocPage st).2.lruList ∧
    (allocPage st).2.pageCapacity = st.pageCapacity ∧
    (∀ s2, ((allocPage st).2.stores s2).accessError = (st.stores s2).accessError) ∧
    pinnedPages (allocPage st).2 = pinnedPages st + 1 ∧
    (∀ k, mapFind k st.pageMap = none →
      mapFind k (allocPage st).2.pageMap = none) := by
  have hlen := inv_lengths_le st hInv
  have hone : (0 : Nat) + 1 < kSizeTMod := by
    simp [kSizeTMod]
  cases hf : st.freeList with
  | cons b0 rest =>
    have heq : allocPage st =
        (some b0, updPage { st with freeList := rest } b0 Page.addPin) := by
      simp only [allocPage, hf]
    rw [heq] at hb
    simp only [Option.some.injEq] at hb
    obtain rfl := hb.symm
    rw [heq]
    have hmemb : b ∈ st.freeList := by rw [hf]; exact List.mem_cons_self _ _
    have hpin0 : (st.pages b).pinCount = 0 := hInv.freePin b hmemb
    have hblt : b < st.pageCount := hInv.freeLt b hmemb
    have hnodup := hInv.nodup
    rw [hf] at hnodup
    rw [List.cons_append, List.nodup_cons, List.mem_append] at hnodup
    obtain ⟨hbnot, hnd⟩ := hnodup
    have hbrest : b ∉ rest := fun h2 => hbnot (Or.inl h2)
    have hblru : b ∉ st.lruList := fun h2 => hbnot (Or.inr h2)
    have hpagesb :
        ((updPage { st with freeList := rest } b Page.addPin).pages b).pinCount = 1 := by
      rw [updPage_pages_self]
      rw [addPin_pinCount _ (by rw [hpin0]; exact hone)]
      rw [hpin0]
    have hpagesne : ∀ i, i ≠ b →
        (updPage { st with freeList := rest } b Page.addPin).pages i = st.pages i := by
      intro i h2
      rw [updPage_pages_ne _ _ _ _ h2]
    refine ⟨?_, hpagesb, ?_, ?_, ?_, rfl, fun _ => rfl, ?_, fun k hk => hk⟩
    · constructor
      · intro i hi
        have hir : i ∈ rest := hi
        have hib : i ≠ b := fun h2 => hbrest (h2 ▸ hir)
        rw [hpagesne i hib]
        exact hInv.freePin i (by rw [hf]; exact List.mem_cons_of_mem _ hir)
      · intro i hi
        have hib : i ≠ b := fun h2 => hblru (h2 ▸ hi)
        rw [hpagesne i hib]
        exact hInv.lruPin i hi
      · exact hnd
      · intro i hi
        exact hInv.freeLt i (by rw [hf]; exact List.mem_cons_of_mem _ hi)
      · intro i hi
        exact hInv.lruLt i hi
      · intro i hi
        have hib : i ≠ b := by
          intro h2
          have hb2 := hblt
          subst h2
          exact Nat.lt_irrefl i (Nat.lt_of_lt_of_le hb2 hi)
        rw [hpagesne i hib]
        exact hInv.fresh i hi
      · exact hInv.poolPagesNil
      · exact hInv.countLe
      · intro i
        by_cases hib : i = b
        · subst hib
          rw [updPage_pages_self]
          exact addPin_pinLt _
        · rw [hpagesne i hib]
          exact hInv.pinLt i
    · exact hblt
    · exact hbrest
    · exact hblru
    · simp only [pinnedPages, updPage_pageCount, updPage_freeList, updPage_lruList]
      rw [hf] at hlen ⊢
      simp only [List.length_cons] at hlen ⊢
      omega
  | nil =>
    cases hl : st.lruList with
    | cons b0 rest =>
      have heq : allocPage st =
          (some b0,
            unassignPageFromStore
              (updPage
                { st with lruList := rest,
                          pageMap := mapErase
                            ((st.pages b0).assigned.getD (0, 0)) st.pageMap }
                b0 Page.addPin) b0) := by
        simp only [allocPage, hf, hl]
      rw [heq] at hb
      simp only [Option.some.injEq] at hb
      obtain rfl := hb.symm
      rw [heq]
      have hmemb : b ∈ st.lruList := by rw [hl]; exact List.mem_cons_self _ _
      have hpin0 : (st.pages b).pinCount = 0 := hInv.lruPin b hmemb
      have hblt : b < st.pageCount := hInv.lruLt b hmemb
      have hnodup := hInv.nodup
      rw [hf, hl] at hnodup
      simp only [List.nil_append, List.nodup_cons] at hnodup
      obtain ⟨hbrest, hnd⟩ := hnodup
      set st1 : PagePool :=
        { st with lruList := rest,
                  pageMap := mapErase ((st.pages b).assigned.getD (0, 0)) st.pageMap }
        with hst1
      set st2 : PagePool := updPage st1 b Page.addPin with hst2
      have hpp2 : ∀ s2, (st2.stores s2).poolPages = [] := by
        intro s2
        rw [hst2, updPage_stores]
        exact hInv.poolPagesNil s2
      obtain ⟨hcap, hcnt, hfree2, hlru2, hmap2, hpinAll, hne, hassigned, hppNil, herr⟩ :=
        unassignPageFromStore_fields st2 b hpp2
      have hst2pinb : (st2.pages b).pinCount = 1 := by
        rw [hst2, updPage_pages_self]
        rw [addPin_pinCount _ (by rw [hpin0]; exact hone)]
        rw [hpin0]
      have hst2pinne : ∀ i, i ≠ b → st2.pages i = st.pages i := by
        intro i h2
        rw [hst2, updPage_pages_ne _ _ _ _ h2]
      have hfree2e : (unassignPageFromStore st2 b).freeList = [] := by
        rw [hfree2, hst2, updPage_freeList, hst1]
        exact hf
      have hlru2e : (unassignPageFromStore st2 b).lruList = rest := by
        rw [hlru2, hst2, updPage_lruList, hst1]
      have hcnt2e : (unassignPageFromStore st2 b).pageCount = st.pageCount := by
        rw [hcnt, hst2, updPage_pageCount, hst1]
      refine ⟨?_, ?_, ?_, ?_, ?_, ?_, ?_, ?_, ?_⟩
      · constructor
        · intro i hi
          rw [hfree2e] at hi
          exact absurd hi (List.not_mem_nil i)
        · intro i hi
          rw [hlru2e] at hi
          have hib : i ≠ b := fun h2 => hbrest (h2 ▸ hi)
          rw [hpinAll i, hst2pinne i hib]
          exact hInv.lruPin i (by rw [hl]; exact List.mem_cons_of_mem _ hi)
        · rw [hfree2e, hlru2e]
          simpa using hnd
        · intro i hi
          rw [hfree2e] at hi
          exact absurd hi (List.not_mem_nil i)
        · intro i hi
          rw [hlru2e] at hi
          rw [hcnt2e]
          exact hInv.lruLt i (by rw [hl]; exact List.mem_cons_of_mem _ hi)
        · intro i hi
          rw [hcnt2e] at hi
          have hib : i ≠ b := by
            intro h2
            have hb2 := hblt
            subst h2
            exact Nat.lt_irrefl i (Nat.lt_of_lt_of_le hb2 hi)
          rw [hne i hib, hst2pinne i hib]
          exact hInv.fresh i hi
        · exact hppNil
        · rw [hcnt2e, hcap, hst2, updPage_pageCapacity, hst1]
          exact hInv.countLe
        · intro i
          by_cases hib : i = b
          · subst hib
            rw [hpinAll i, hst2pinb]
            simp [kSizeTMod]
          · rw [hpinAll i, hst2pinne i hib]
            exact hInv.pinLt i
      · rw [hpinAll b, hst2pinb]
      · rw [hcnt2e]
        exact hblt
      · rw [hfree2e]
        exact List.not_mem_nil b
      · rw [hlru2e]
        exact hbrest
      · rw [hcap, hst2, updPage_pageCapacity, hst1]
      · intro s2
        rw [herr s2, hst2, updPage_stores, hst1]
      · simp only [pinnedPages, hcnt2e, hfree2e, hlru2e]
        rw [hf, hl] at hlen ⊢
        simp only [List.length_nil, List.length_cons] at hlen ⊢
        omega
      · intro k hk
        rw [hmap2, hst2, updPage_pageMap, hst1]
        exact mapFind_mapErase_of_none _ _ _ hk
    | nil =>
      by_cases hc : st.pageCount < st.pageCapacity
      · have heq : allocPage st =
            (some st.pageCount,
              { st with pageCount := st.pageCount + 1,
                        pages := fun i =>
                          if i = st.pageCount then Page.create else st.pages i }) := by
          simp only [allocPage, hf, hl, if_pos hc]
        rw [heq] at hb
        simp only [Option.some.injEq] at hb
        subst hb
        rw [heq]
        refine ⟨?_, ?_, ?_, ?_, ?_, rfl, fun _ => rfl, ?_, fun k hk => hk⟩
        · constructor
          · intro i hi
            simp only [] at hi
            rw [hf] at hi
            exact absurd hi (List.not_mem_nil i)
          · intro i hi
            simp only [] at hi
            rw [hl] at hi
            exact absurd hi (List.not_mem_nil i)
          · show (st.freeList ++ st.lruList).Nodup
            rw [hf, hl]
            exact List.nodup_nil
          · intro i hi
            simp only [] at hi
            rw [hf] at hi
            exact absurd hi (List.not_mem_nil i)
          · intro i hi
            simp only [] at hi
            rw [hl] at hi
            exact absurd hi (List.not_mem_nil i)
          · intro i hi
            simp only [] at hi ⊢
            have hib : i ≠ st.pageCount := by omega
            rw [if_neg hib]
            exact hInv.fresh i (by omega)
          · exact hInv.poolPagesNil
          · show st.pageCount + 1 ≤ st.pageCapacity
            omega
          · intro i
            simp only []
            by_cases hib : i = st.pageCount
            · rw [if_pos hib]
              show (1 : Nat) < kSizeTMod
              simp [kSizeTMod]
            · rw [if_neg hib]
              exact hInv.pinLt i
        · show (if st.pageCount = st.pageCount then Page.create else st.pages st.pageCount).pinCount = 1
          rw [if_pos rfl]
          rfl
        · show st.pageCount < st.pageCount + 1
          omega
        · show st.pageCount ∉ st.freeList
          rw [hf]
          exact List.not_mem_nil _
        · show st.pageCount ∉ st.lruList
          rw [hl]
          exact List.not_mem_nil _
        · simp only [pinnedPages]
          rw [hf, hl]
          simp only [List.length_nil]
          omega
      · have heq : (allocPage st).1 = none := by
          simp only [allocPage, hf, hl, if_neg hc]
        rw [heq] at hb
        exact absurd hb (by simp)

/-- UnpinUnassignedPage on a buffer holding exactly one pin drops the pin
to zero and appends the buffer to the free list. -/
theorem unpinUnassignedPage_of_pin_one (st : PagePool) (b : BufId)
    (hpin : (st.pages b).pinCount = 1) :
    unpinUnassignedPage st b =
      { updPage st b Page.removePin with freeList := st.freeList ++ [b] } := by
  unfold unpinUnassignedPage
  have hrp : ((updPage st b Page.removePin).pages b).pinCount = 0 := by
    rw [updPage_pages_self,
        removePin_pinCount _ (by omega) (by rw [hpin]; simp [kSizeTMod]), hpin]
  have h1 : ((updPage st b Page.removePin).pages b).isUnpinned = true := by
    simp [Page.isUnpinned, hrp]
  simp only [h1, if_true]
  rw [updPage_freeList]

/-- Invariant transfer to a state that differs from an invariant state
only in the identity map, the stores (pool_pages still empty), and the
control block of one created, unlisted buffer whose pin count stays a
size_t value. -/
theorem inv_of_pages_update (st : PagePool) (hInv : Inv st) (b : BufId)
    (hb : b < st.pageCount) (hfree : b ∉ st.freeList) (hlru : b ∉ st.lruList)
    (st2 : PagePool)
    (hcap : st2.pageCapacity = st.pageCapacity)
    (hcnt : st2.pageCount = st.pageCount)
    (hfl : st2.freeList = st.freeList)
    (hll : st2.lruList = st.lruList)
    (hpp : ∀ s2, (st2.stores s2).poolPages = [])
    (hne : ∀ i, i ≠ b → st2.pages i = st.pages i)
    (hpinb : (st2.pages b).pinCount < kSizeTMod) :
    Inv st2 := by
  constructor
  · intro i hi
    rw [hfl] at hi
    have hib : i ≠ b := fun h2 => hfree (h2 ▸ hi)
    rw [hne i hib]
    exact hInv.freePin i hi
  · intro i hi
    rw [hll] at hi
    have hib : i ≠ b := fun h2 => hlru (h2 ▸ hi)
    rw [hne i hib]
    exact hInv.lruPin i hi
  · rw [hfl, hll]
    exact hInv.nodup
  · intro i hi
    rw [hfl] at hi
    rw [hcnt]
    exact hInv.freeLt i hi
  · intro i hi
    rw [hll] at hi
    rw [hcnt]
    exact hInv.lruLt i hi
  · intro i hi
    rw [hcnt] at hi
    have hib : i ≠ b := by
      intro h2
      have hb2 := hb
      subst h2
      exact Nat.lt_irrefl i (Nat.lt_of_lt_of_le hb2 hi)
    rw [hne i hib]
    exact hInv.fresh i hi
  · exact hpp
  · rw [hcnt, hcap]
    exact hInv.countLe
  · intro i
    by_cases hib : i = b
    · subst hib
      exact hpinb
    · rw [hne i hib]
      exact hInv.pinLt i

/-- Invariant transfer when additionally one created, unlisted,
now-unpinned buffer is appended to the free list. -/
theorem inv_of_free_append (st : PagePool) (hInv : Inv st) (b : BufId)
    (hb : b < st.pageCount) (hfree : b ∉ st.freeList) (hlru : b ∉ st.lruList)
    (st2 : PagePool)
    (hcap : st2.pageCapacity = st.pageCapacity)
    (hcnt : st2.pageCount = st.pageCount)
    (hfl : st2.freeList = st.freeList ++ [b])
    (hll : st2.lruList = st.lruList)
    (hpp : ∀ s2, (st2.stores s2).poolPages = [])
    (hne : ∀ i, i ≠ b → st2.pages i = st.pages i)
    (hpinb : (st2.pages b).pinCount = 0) :
    Inv st2 := by
  have hnd := hInv.nodup
  rw [List.nodup_append] at hnd
  obtain ⟨hndf, hndl, hdisj⟩ := hnd
  constructor
  · intro i hi
    rw [hfl, List.mem_append, List.mem_singleton] at hi
    rcases hi with hi | hi
    · have hib : i ≠ b := fun h2 => hfree (h2 ▸ hi)
      rw [hne i hib]
      exact hInv.freePin i hi
    · subst hi
      exact hpinb
  · intro i hi
    rw [hll] at hi
    have hib : i ≠ b := fun h2 => hlru (h2 ▸ hi)
    rw [hne i hib]
    exact hInv.lruPin i hi
  · rw [hfl, hll, List.nodup_append]
    refine ⟨?_, hndl, ?_⟩
    · rw [List.nodup_append]
      refine ⟨hndf, List.nodup_singleton b, ?_⟩
      intro x hx hx2
      rw [List.mem_singleton] at hx2
      exact hfree (hx2 ▸ hx)
    · intro x hx hx2
      rw [List.mem_append, List.mem_singleton] at hx
      rcases hx with hx | hx
      · exact hdisj hx hx2
      · exact hlru (hx ▸ hx2)
  · intro i hi
    rw [hfl, List.mem_append, List.mem_singleton] at hi
    rw [hcnt]
    rcases hi with hi | hi
    · exact hInv.freeLt i hi
    · exact hi ▸ hb
  · intro i hi
    rw [hll] at hi
    rw [hcnt]
    exact hInv.lruLt i hi
  · intro i hi
    rw [hcnt] at hi
    have hib : i ≠ b := by
      intro h2
      have hb2 := hb
      subst h2
      exact Nat.lt_irrefl i (Nat.lt_of_lt_of_le hb2 hi)
    rw [hne i hib]
    exact hInv.fresh i hi
  · exact hpp
  · rw [hcnt, hcap]
    exact hInv.countLe
  · intro i
    by_cases hib : i = b
    · subst hib
      rw [hpinb]
      simp [kSizeTMod]
    · rw [hne i hib]
      exact hInv.pinLt i

/-- Invariant transfer when additionally one created, unlisted,
now-unpinned buffer is appended to the LRU list. -/
theorem inv_of_lru_append (st : PagePool) (hInv : Inv st) (b : BufId)
    (hb : b < st.pageCount) (hfree : b ∉ st.freeList) (hlru : b ∉ st.lruList)
    (st2 : PagePool)
    (hcap : st2.pageCapacity = st.pageCapacity)
    (hcnt : st2.pageCount = st.pageCount)
    (hfl : st2.freeList = st.freeList)
    (hll : st2.lruList = st.lruList ++ [b])
    (hpp : ∀ s2, (st2.stores s2).poolPages = [])
    (hne : ∀ i, i ≠ b → st2.pages i = st.pages i)
    (hpinb : (st2.pages b).pinCount = 0) :
    Inv st2 := by
  have hnd := hInv.nodup
  rw [List.nodup_append] at hnd
  obtain ⟨hndf, hndl, hdisj⟩ := hnd
  constructor
  · intro i hi
    rw [hfl] at hi
    have hib : i ≠ b := fun h2 => hfree (h2 ▸ hi)
    rw [hne i hib]
    exact hInv.freePin i hi
  · intro i hi
    rw [hll, List.mem_append, List.mem_singleton] at hi
    rcases hi with hi | hi
    · have hib : i ≠ b := fun h2 => hlru (h2 ▸ hi)
      rw [hne i hib]
      exact hInv.lruPin i hi
    · subst hi
      exact hpinb
  · rw [hfl, hll, List.nodup_append]
    refine ⟨hndf, ?_, ?_⟩
    · rw [List.nodup_append]
      refine ⟨hndl, List.nodup_singleton b, ?_⟩
      intro x hx hx2
      rw [List.mem_singleton] at hx2
      exact hlru (hx2 ▸ hx)
    · intro x hx hx2
      rw [List.mem_append, List.mem_singleton] at hx2
      rcases hx2 with hx2 | hx2
      · exact hdisj hx hx2
      · exact hfree (hx2 ▸ hx)
  · intro i hi
    rw [hfl] at hi
    rw [hcnt]
    exact hInv.freeLt i hi
  · intro i hi
    rw [hll, List.mem_append, List.mem_singleton] at hi
    rw [hcnt]
    rcases hi with hi | hi
    · exact hInv.lruLt i hi
    · exact hi ▸ hb
  · intro i hi
    rw [hcnt] at hi
    have hib : i ≠ b := by
      intro h2
      have hb2 := hb
      subst h2
      exact Nat.lt_irrefl i (Nat.lt_of_lt_of_le hb2 hi)
    rw [hne i hib]
    exact hInv.fresh i hi
  · exact hpp
  · rw [hcnt, hcap]
    exact hInv.countLe
  · intro i
    by_cases hib : i = b
    · subst hib
      rw [hpinb]
      simp [kSizeTMod]
    · rw [hne i hib]
      exact hInv.pinLt i

/-- A created buffer off both lists forces strict slack between the lists
and the created-buffer count. -/
theorem inv_count_lower (st : PagePool) (hInv : Inv st) (b : BufId)
    (hb : b < st.pageCount) (hfree : b ∉ st.freeList) (hlru : b ∉ st.lruList) :
    st.freeList.length + st.lruList.length + 1 ≤ st.pageCount := by
  by_contra hcon
  have hlen := inv_lengths_le st hInv
  have hsub : (st.freeList ++ st.lruList).toFinset ⊆ Finset.range st.pageCount := by
    intro x hx
    rw [List.mem_toFinset, List.mem_append] at hx
    rw [Finset.mem_range]
    rcases hx with hx | hx
    · exact hInv.freeLt x hx
    · exact hInv.lruLt x hx
  have hcard : (st.freeList ++ st.lruList).toFinset.card = st.pageCount := by
    rw [List.toFinset_card_of_nodup hInv.nodup, List.length_append]
    omega
  have heqset : (st.freeList ++ st.lruList).toFinset = Finset.range st.pageCount :=
    Finset.eq_of_subset_of_card_le hsub (by rw [hcard, Finset.card_range])
  have hbmem : b ∈ (st.freeList ++ st.lruList).toFinset := by
    rw [heqset, Finset.mem_range]
    exact hb
  rw [List.mem_toFinset, List.mem_append] at hbmem
  rcases hbmem with h | h
  · exact hfree h
  · exact hlru h

/-- AssignPageToStore in kIgnorePageData mode always reports success,
because FetchStorePage only marks the buffer dirty. -/
theorem assignPageToStore_ignore_success (st : PagePool) (b : BufId)
    (s : StoreId) (pid : PageId) :
    (assignPageToStore st b s pid PageFetchMode.kIgnorePageData).1 =
      Status.kSuccess := rfl

/-- The effect of AssignPageToStore on a freshly allocated buffer: the
invariant survives, and when the fetch fails the buffer is rolled back to
an unassigned, unpinned free-list entry with the identity map unchanged
and one pinned page fewer. -/
theorem assignPageToStore_spec (st : PagePool) (b : BufId) (s : StoreId)
    (pid : PageId) (mode : PageFetchMode) (hInv : Inv st)
    (hb : b < st.pageCount) (hpin : (st.pages b).pinCount = 1)
    (hfree : b ∉ st.freeList) (hlru : b ∉ st.lruList) :
    Inv (assignPageToStore st b s pid mode).2 ∧
    ((assignPageToStore st b s pid mode).1 ≠ Status.kSuccess →
      ((assignPageToStore st b s pid mode).2.pages b).assigned = none ∧
      ((assignPageToStore st b s pid mode).2.pages b).pinCount = 0 ∧
      b ∈ (assignPageToStore st b s pid mode).2.freeList ∧
      (assignPageToStore st b s pid mode).2.pageMap = st.pageMap ∧
      pinnedPages (assignPageToStore st b s pid mode).2 + 1 = pinnedPages st) := by
  have hcl := inv_count_lower st hInv b hb hfree hlru
  cases mode with
  | kIgnorePageData =>
    refine ⟨?_, fun h => absurd (assignPageToStore_ignore_success st b s pid) h⟩
    refine inv_of_pages_update st hInv b hb hfree hlru _ rfl rfl rfl rfl
      (fun s2 => hInv.poolPagesNil s2) ?_ ?_
    · intro i hib
      have h3 : (updPage
          (updPage st b (fun p => { p with assigned := some (s, pid) })) b
          (fun p => { p with isDirty := true, data := kDebugPattern })).pages i =
          st.pages i := by
        rw [updPage_pages_ne _ _ _ _ hib, updPage_pages_ne _ _ _ _ hib]
      exact h3
    · have h3 : ((updPage
          (updPage st b (fun p => { p with assigned := some (s, pid) })) b
          (fun p => { p with isDirty := true, data := kDebugPattern })).pages b).pinCount <
          kSizeTMod := by
        rw [updPage_pages_self, updPage_pages_self]
        show (st.pages b).pinCount < kSizeTMod
        rw [hpin]
        simp [kSizeTMod]
      exact h3
  | kFetchPageData =>
    have hso : storeOf (updPage st b
        (fun p => { p with assigned := some (s, pid) })) b = s := by
      simp [storeOf, updPage_pages_self]
    by_cases he : (st.stores s).accessError
    · have hfetch : fetchStorePage (updPage st b
          (fun p => { p with assigned := some (s, pid) })) b
          PageFetchMode.kFetchPageData =
          (Status.kIoError,
            updPage st b (fun p => { p with assigned := some (s, pid) })) := by
        unfold fetchStorePage
        rw [hso]
        unfold readPage
        rw [updPage_stores, if_pos he]
      have hres : assignPageToStore st b s pid PageFetchMode.kFetchPageData =
          (Status.kIoError,
            unpinUnassignedPage
              (updPage (updPage st b (fun p => { p with assigned := some (s, pid) }))
                b (fun p => { p with assigned := none })) b) := by
        unfold assignPageToStore
        simp only [hfetch]
        rw [if_neg (show ¬Status.kIoError = Status.kSuccess by decide)]
      have hpin3 : ((updPage (updPage st b
            (fun p => { p with assigned := some (s, pid) }))
            b (fun p => { p with assigned := none })).pages b).pinCount = 1 := by
        rw [updPage_pages_self, updPage_pages_self]
        simp only []
        exact hpin
      have hunp := unpinUnassignedPage_of_pin_one _ b hpin3
      rw [hres]
      simp only [hunp]
      have hpagesb : (Page.removePin ((updPage (updPage st b
            (fun p => { p with assigned := some (s, pid) }))
            b (fun p => { p with assigned := none })).pages b)).pinCount = 0 := by
        rw [removePin_pinCount _ (by rw [hpin3]; omega)
            (by rw [hpin3]; simp [kSizeTMod]), hpin3]
      have hS3pin0 : ((updPage
          (updPage (updPage st b (fun p => { p with assigned := some (s, pid) })) b
            (fun p => { p with assigned := none })) b Page.removePin).pages b).pinCount =
          0 := by
        rw [updPage_pages_self]
        exact hpagesb
      have hS3assigned : ((updPage
          (updPage (updPage st b (fun p => { p with assigned := some (s, pid) })) b
            (fun p => { p with assigned := none })) b Page.removePin).pages b).assigned =
          none := by
        rw [updPage_pages_self, removePin_assigned, updPage_pages_self]
      refine ⟨?_, fun _ => ⟨?_, ?_, ?_, ?_, ?_⟩⟩
      · refine inv_of_free_append st hInv b hb hfree hlru _ rfl rfl rfl rfl
          (fun s2 => hInv.poolPagesNil s2) ?_ ?_
        · intro i hib
          have h3 : (updPage
              (updPage (updPage st b (fun p => { p with assigned := some (s, pid) })) b
                (fun p => { p with assigned := none })) b Page.removePin).pages i =
              st.pages i := by
            rw [updPage_pages_ne _ _ _ _ hib, updPage_pages_ne _ _ _ _ hib,
                updPage_pages_ne _ _ _ _ hib]
          exact h3
        · exact hS3pin0
      · exact hS3assigned
      · exact hS3pin0
      · show b ∈ st.freeList ++ [b]
        rw [List.mem_append, List.mem_singleton]
        exact Or.inr rfl
      · rfl
      · show st.pageCount - (st.freeList ++ [b]).length - st.lruList.length + 1 =
          pinnedPages st
        rw [List.length_append, List.length_singleton]
        simp only [pinnedPages]
        omega
    · have hfetch : fetchStorePage (updPage st b
          (fun p => { p with assigned := some (s, pid) })) b
          PageFetchMode.kFetchPageData =
          (Status.kSuccess,
            updPage (updPage st b (fun p => { p with assigned := some (s, pid) })) b
              (fun p =>
                { p with
                  data := ((updPage st b (fun p2 =>
                    { p2 with assigned := some (s, pid) })).stores s).file
                      (pageIdOf (updPage st b (fun p2 =>
                        { p2 with assigned := some (s, pid) })) b),
                  isDirty := false })) := by
        unfold fetchStorePage
        rw [hso]
        unfold readPage
        rw [updPage_stores, if_neg he]
      have hres : (assignPageToStore st b s pid PageFetchMode.kFetchPageData).1 =
          Status.kSuccess := by
        unfold assignPageToStore
        simp only [hfetch]
        simp only [if_true]
      refine ⟨?_, fun h => absurd hres h⟩
      have hres2 : (assignPageToStore st b s pid PageFetchMode.kFetchPageData).2 =
          { updPage (updPage st b (fun p => { p with assigned := some (s, pid) })) b
              (fun p =>
                { p with
                  data := ((updPage st b (fun p2 =>
                    { p2 with assigned := some (s, pid) })).stores s).file
                      (pageIdOf (updPage st b (fun p2 =>
                        { p2 with assigned := some (s, pid) })) b),
                  isDirty := false }) with
            pageMap := ((s, pid), b) :: st.pageMap } := by
        unfold assignPageToStore
        simp only [hfetch]
        simp only [if_true]
        rw [updPage_pageMap, updPage_pageMap]
      rw [hres2]
      refine inv_of_pages_update st hInv b hb hfree hlru _ rfl rfl rfl rfl
        (fun s2 => hInv.poolPagesNil s2) ?_ ?_
      · intro i hib
        have h3 : (updPage
            (updPage st b (fun p => { p with assigned := some (s, pid) })) b
            (fun p =>
              { p with
                data := ((updPage st b (fun p2 =>
                  { p2 with assigned := some (s, pid) })).stores s).file
                    (pageIdOf (updPage st b (fun p2 =>
                      { p2 with assigned := some (s, pid) })) b),
                isDirty := false })).pages i = st.pages i := by
          rw [updPage_pages_ne _ _ _ _ hib, updPage_pages_ne _ _ _ _ hib]
        exact h3
      · have h3 : ((updPage
            (updPage st b (fun p => { p with assigned := some (s, pid) })) b
            (fun p =>
              { p with
                data := ((updPage st b (fun p2 =>
                  { p2 with assigned := some (s, pid) })).stores s).file
                    (pageIdOf (updPage st b (fun p2 =>
                      { p2 with assigned := some (s, pid) })) b),
                isDirty := false })).pages b).pinCount < kSizeTMod := by
          rw [updPage_pages_self, updPage_pages_self]
          show (st.pages b).pinCount < kSizeTMod
          rw [hpin]
          simp [kSizeTMod]
        exact h3

/-- Invariant transfer to a state that differs from an invariant state
only in the identity map, the stores (pool_pages still empty), and the
non-pin fields of the control block of one created buffer. -/
theorem inv_of_pin_preserving_update (st : PagePool) (hInv : Inv st) (b : BufId)
    (hb : b < st.pageCount) (st2 : PagePool)
    (hcap : st2.pageCapacity = st.pageCapacity)
    (hcnt : st2.pageCount = st.pageCount)
    (hfl : st2.freeList = st.freeList)
    (hll : st2.lruList = st.lruList)
    (hpp : ∀ s2, (st2.stores s2).poolPages = [])
    (hne : ∀ i, i ≠ b → st2.pages i = st.pages i)
    (hpinb : (st2.pages b).pinCount = (st.pages b).pinCount) :
    Inv st2 := by
  have hpin : ∀ i, (st2.pages i).pinCount = (st.pages i).pinCount := by
    intro i
    by_cases hib : i = b
    · subst hib
      exact hpinb
    · rw [hne i hib]
  constructor
  · intro i hi
    rw [hfl] at hi
    rw [hpin i]
    exact hInv.freePin i hi
  · intro i hi
    rw [hll] at hi
    rw [hpin i]
    exact hInv.lruPin i hi
  · rw [hfl, hll]
    exact hInv.nodup
  · intro i hi
    rw [hfl] at hi
    rw [hcnt]
    exact hInv.freeLt i hi
  · intro i hi
    rw [hll] at hi
    rw [hcnt]
    exact hInv.lruLt i hi
  · intro i hi
    rw [hcnt] at hi
    have hib : i ≠ b := by
      intro h2
      have hb2 := hb
      subst h2
      exact Nat.lt_irrefl i (Nat.lt_of_lt_of_le hb2 hi)
    rw [hne i hib]
    exact hInv.fresh i hi
  · exact hpp
  · rw [hcnt, hcap]
    exact hInv.countLe
  · intro i
    rw [hpin i]
    exact hInv.pinLt i

/-- Invariant transfer to a state with the same lists, counters and
buffer control blocks (only the map and the store states, with empty
pool_pages, may differ). -/
theorem inv_transfer_trivial (st st2 : PagePool) (hInv : Inv st)
    (hcap : st2.pageCapacity = st.pageCapacity)
    (hcnt : st2.pageCount = st.pageCount)
    (hfl : st2.freeList = st.freeList)
    (hll : st2.lruList = st.lruList)
    (hpages : st2.pages = st.pages)
    (hpp : ∀ s2, (st2.stores s2).poolPages = []) :
    Inv st2 := by
  constructor
  · intro i hi
    rw [hfl] at hi
    rw [hpages]
    exact hInv.freePin i hi
  · intro i hi
    rw [hll] at hi
    rw [hpages]
    exact hInv.lruPin i hi
  · rw [hfl, hll]
    exact hInv.nodup
  · intro i hi
    rw [hfl] at hi
    rw [hcnt]
    exact hInv.freeLt i hi
  · intro i hi
    rw [hll] at hi
    rw [hcnt]
    exact hInv.lruLt i hi
  · intro i hi
    rw [hcnt] at hi
    rw [hpages]
    exact hInv.fresh i hi
  · exact hpp
  · rw [hcnt, hcap]
    exact hInv.countLe
  · intro i
    rw [hpages]
    exact hInv.pinLt i

/-- A buffer with a nonzero pin count has been created. -/
theorem inv_created_of_pinned (st : PagePool) (hInv : Inv st) (b : BufId)
    (hp : (st.pages b).pinCount ≠ 0) : b < st.pageCount := by
  by_contra h
  have h2 := hInv.fresh b (Nat.le_of_not_lt h)
  rw [h2] at hp
  exact hp rfl

/-- An assigned buffer has been created. -/
theorem inv_created_of_assigned (st : PagePool) (hInv : Inv st) (b : BufId)
    (ha : (st.pages b).assigned ≠ none) : b < st.pageCount := by
  by_contra h
  have h2 := hInv.fresh b (Nat.le_of_not_lt h)
  rw [h2] at ha
  exact ha rfl

/-- UnpinStorePage on a buffer holding exactly one pin drops the pin to
zero and appends the buffer to the tail of the LRU list. -/
theorem unpinStorePage_of_pin_one (st : PagePool) (b : BufId)
    (hpin : (st.pages b).pinCount = 1) :
    unpinStorePage st b =
      { updPage st b Page.removePin with lruList := st.lruList ++ [b] } := by
  unfold unpinStorePage
  have hrp : ((updPage st b Page.removePin).pages b).pinCount = 0 := by
    rw [updPage_pages_self,
        removePin_pinCount _ (by omega) (by rw [hpin]; simp [kSizeTMod]), hpin]
  have h1 : ((updPage st b Page.removePin).pages b).isUnpinned = true := by
    simp [Page.isUnpinned, hrp]
  simp only [h1, if_true]
  rw [updPage_lruList]

/-- UnpinStorePage on a buffer holding several pins only decrements. -/
theorem unpinStorePage_of_pin_many (st : PagePool) (b : BufId)
    (h0 : (st.pages b).pinCount ≠ 0) (h1 : (st.pages b).pinCount ≠ 1)
    (hlt : (st.pages b).pinCount < kSizeTMod) :
    unpinStorePage st b = updPage st b Page.removePin := by
  unfold unpinStorePage
  have hrp : ((updPage st b Page.removePin).pages b).pinCount ≠ 0 := by
    rw [updPage_pages_self, removePin_pinCount _ h0 hlt]
    omega
  have h2 : ((updPage st b Page.removePin).pages b).isUnpinned = false := by
    simp [Page.isUnpinned, hrp]
  simp only [h2, Bool.false_eq_true, if_false]

/-- UnpinUnassignedPage on a buffer holding several pins only
decrements. -/
theorem unpinUnassignedPage_of_pin_many (st : PagePool) (b : BufId)
    (h0 : (st.pages b).pinCount ≠ 0) (h1 : (st.pages b).pinCount ≠ 1)
    (hlt : (st.pages b).pinCount < kSizeTMod) :
    unpinUnassignedPage st b = updPage st b Page.removePin := by
  unfold unpinUnassignedPage
  have hrp : ((updPage st b Page.removePin).pages b).pinCount ≠ 0 := by
    rw [updPage_pages_self, removePin_pinCount _ h0 hlt]
    omega
  have h2 : ((updPage st b Page.removePin).pages b).isUnpinned = false := by
    simp [Page.isUnpinned, hrp]
  simp only [h2, Bool.false_eq_true, if_false]

/-- C10: StorePage in kIgnorePageData mode returns kSuccess or kPoolFull,
never kIoError: the ignore-mode fetch touches no file, and a failed dirty
writeback inside an eviction is not propagated by AllocPage. -/
theorem storePage_ignore_never_io_error (st : PagePool) (s : StoreId)
    (pid : PageId) :
    (storePage st s pid PageFetchMode.kIgnorePageData).1 = Status.kSuccess ∨
    (storePage st s pid PageFetchMode.kIgnorePageData).1 = Status.kPoolFull := by
  unfold storePage
  cases h : mapFind (s, pid) st.pageMap with
  | some b => exact Or.inl rfl
  | none =>
    cases ha : (allocPage st).1 with
    | none =>
      right
      simp only [ha]
    | some b =>
      left
      simp [ha, assignPageToStore_ignore_success]

/-- C1 counter-evidence: on a capacity-1 pool, StorePage(s, 0, Ignore)
returns buffer 0 with pin count 1; a second StorePage(s, 0, Fetch) made
while holding that pin hits the identity map and returns the same buffer,
but the pin count is still 1, not 2: the cache-hit path of the source
never adds a pin. -/
theorem storePage_cache_hit_leaves_pin_count_unchanged :
    hitTrace1.1 = Status.kSuccess ∧ hitTrace1.2.1 = some 0 ∧
    (hitTrace1.2.2.pages 0).pinCount = 1 ∧
    hitTrace2.1 = Status.kSuccess ∧ hitTrace2.2.1 = some 0 ∧
    (hitTrace2.2.2.pages 0).pinCount = 1 := by decide

/-- C6 counter-evidence: after freeing buffer 0 and then buffer 1, the
free list is [0, 1] and AllocPage returns buffer 0 — the least recently
freed buffer, not the most recently freed buffer 1: UnpinUnassignedPage
appends at the back while AllocPage pops the front, a FIFO queue. -/
theorem free_list_is_fifo_not_lifo :
    fifoTrace.freeList = [0, 1] ∧ (allocPage fifoTrace).1 = some 0 := by decide

/-- C7 counter-evidence: immediately after a successful
StorePage(s, 0, Ignore), buffer 0 is assigned to (store 0, page 0) but
store 0's pool_pages list is empty: AssignPageToStore never calls
StoreImpl::PageAssigned. -/
theorem assigned_page_not_in_store_pool_pages :
    hitTrace1.1 = Status.kSuccess ∧
    (hitTrace1.2.2.pages 0).assigned = some (0, 0) ∧
    (hitTrace1.2.2.stores 0).poolPages = [] := by decide

/-- C9 counter-evidence: after four clean pages of store 0 are resident
and unpinned, closing the store leaves the pool unchanged apart from the
lifecycle state: allocated stays 4 but unused stays 0 (the claim expects
4), buffer 0 is still assigned, and the identity map still has the
(store 0, page 0) entry — because the pages were never registered in
pool_pages, Close has nothing to walk. -/
theorem store_close_leaves_pages_resident :
    allocatedPages c9Closed = 4 ∧ unusedPages c9Closed = 0 ∧
    pinnedPages c9Closed = 0 ∧
    c9Closed.lruList = [0, 1, 2, 3] ∧
    mapFind (0, 0) c9Closed.pageMap = some 0 ∧
    (c9Closed.pages 0).assigned = some (0, 0) ∧
    (c9Closed.stores 0).state = StoreLifecycle.kClosed := by decide


/-- C5: when AllocPage must evict (free list empty, LRU non-empty), it
pops the LRU head, erases the victim's (store, page-id) entry from the
identity map, pins the buffer, clears its identity, and — when the victim
is dirty — writes the victim's buffer contents back to the store's data
file at the victim's page id before reuse. -/
theorem allocPage_evicts_lru_head_and_flushes (st : PagePool) (b : BufId)
    (rest : List BufId) (s : StoreId) (pid : PageId)
    (hfree : st.freeList = [])
    (hlru : st.lruList = b :: rest)
    (hass : (st.pages b).assigned = some (s, pid))
    (hpin : (st.pages b).pinCount = 0)
    (herr : (st.stores s).accessError = false) :
    (allocPage st).1 = some b
    ∧ (allocPage st).2.lruList = rest
    ∧ mapFind (s, pid) (allocPage st).2.pageMap = none
    ∧ ((allocPage st).2.pages b).pinCount = 1
    ∧ ((allocPage st).2.pages b).assigned = none
    ∧ ((allocPage st).2.pages b).isDirty = false
    ∧ ((st.pages b).isDirty = true →
        ((allocPage st).2.stores s).file pid = (st.pages b).data) := by
  cases hd : (st.pages b).isDirty
  all_goals
    simp [allocPage, hfree, hlru, unassignPageFromStore, updPage, storeOf, pageIdOf,
          writePage, Page.addPin, hass, hd, herr, hpin, updStore,
          mapFind_mapErase_self, kSizeTMod]

/-- Witness for C5 on a concrete pool: the dirty victim caching
(store 0, page 0) with content 42 is evicted, its content lands in the
data file at page 0, and the buffer comes back pinned, clean and
unassigned. -/
theorem allocPage_evicts_lru_head_and_flushes_witness :
    (allocPage (dirtyVictimPool false)).1 = some 0
    ∧ (allocPage (dirtyVictimPool false)).2.lruList = []
    ∧ mapFind (0, 0) (allocPage (dirtyVictimPool false)).2.pageMap = none
    ∧ ((allocPage (dirtyVictimPool false)).2.pages 0).pinCount = 1
    ∧ ((allocPage (dirtyVictimPool false)).2.pages 0).assigned = none
    ∧ ((allocPage (dirtyVictimPool false)).2.pages 0).isDirty = false
    ∧ ((allocPage (dirtyVictimPool false)).2.stores 0).file 0 =
        ((dirtyVictimPool false).pages 0).data := by
  have h := allocPage_evicts_lru_head_and_flushes (dirtyVictimPool false) 0 [] 0 0
    rfl rfl rfl rfl rfl
  exact ⟨h.1, h.2.1, h.2.2.1, h.2.2.2.1, h.2.2.2.2.1, h.2.2.2.2.2.1,
    h.2.2.2.2.2.2 rfl⟩

/-- C3: when the dirty victim's writeback fails inside
UnassignPageFromStore (called from AllocPage's eviction path), the dirty
flag is still cleared, the identity is still cleared, the owning store
ends up Closed, and the eviction still completes: AllocPage still returns
the pinned buffer and no error is surfaced. -/
theorem eviction_write_error_completes_and_closes_store (st : PagePool)
    (b : BufId) (rest : List BufId) (s : StoreId) (pid : PageId)
    (hfree : st.freeList = [])
    (hlru : st.lruList = b :: rest)
    (hass : (st.pages b).assigned = some (s, pid))
    (hdirty : (st.pages b).isDirty = true)
    (hpin : (st.pages b).pinCount = 0)
    (herr : (st.stores s).accessError = true)
    (hopen : (st.stores s).state = StoreLifecycle.kOpen)
    (hpp : ∀ s2, (st.stores s2).poolPages = []) :
    (allocPage st).1 = some b
    ∧ ((allocPage st).2.pages b).isDirty = false
    ∧ ((allocPage st).2.pages b).assigned = none
    ∧ 0 < ((allocPage st).2.pages b).pinCount
    ∧ ((allocPage st).2.stores s).state = StoreLifecycle.kClosed
    ∧ (allocPage st).2.lruList = rest := by
  simp [allocPage, hfree, hlru, unassignPageFromStore, updPage, storeOf, pageIdOf,
        writePage, Page.addPin, hass, hdirty, hpin, herr, hopen, hpp, updStore,
        storeClose, drainPoolPages, kSizeTMod]

/-- Witness for C3 on a concrete pool: evicting the dirty victim of a
store whose data file fails every write still yields the buffer, and the
store ends up Closed. -/
theorem eviction_write_error_completes_and_closes_store_witness :
    (allocPage (dirtyVictimPool true)).1 = some 0
    ∧ ((allocPage (dirtyVictimPool true)).2.pages 0).isDirty = false
    ∧ ((allocPage (dirtyVictimPool true)).2.pages 0).assigned = none
    ∧ 0 < ((allocPage (dirtyVictimPool true)).2.pages 0).pinCount
    ∧ ((allocPage (dirtyVictimPool true)).2.stores 0).state =
        StoreLifecycle.kClosed
    ∧ (allocPage (dirtyVictimPool true)).2.lruList = [] :=
  eviction_write_error_completes_and_closes_store (dirtyVictimPool true) 0 [] 0 0
    rfl rfl rfl rfl rfl rfl rfl (fun _ => rfl)

/-- StorePage preserves the pool invariant. -/
theorem storePage_inv (st : PagePool) (hInv : Inv st) (s : StoreId)
    (pid : PageId) (mode : PageFetchMode) :
    Inv (storePage st s pid mode).2.2 := by
  unfold storePage
  cases hm : mapFind (s, pid) st.pageMap with
  | some b => exact hInv
  | none =>
    cases ha : (allocPage st).1 with
    | none =>
      simp only [ha]
      obtain ⟨heq, h1, h2, h3⟩ := allocPage_none_spec st ha
      have h4 := hInv
      rw [← heq] at h4
      exact h4
    | some b =>
      simp only [ha]
      obtain ⟨hInv2, hpin2, hblt, hbf, hbl, hcap2, herr2, hpinned2, hmap2⟩ :=
        allocPage_some_spec st hInv b ha
      obtain ⟨hInv3, hfail⟩ :=
        assignPageToStore_spec (allocPage st).2 b s pid mode hInv2 hblt hpin2 hbf hbl
      by_cases hs2 : (assignPageToStore (allocPage st).2 b s pid mode).1 =
          Status.kSuccess
      · simp only [if_pos hs2]
        exact hInv3
      · simp only [if_neg hs2]
        exact hInv3

/-- Every guarded public transition preserves the pool invariant. -/
theorem step_inv {st st2 : PagePool} (hInv : Inv st) (hstep : Step st st2) :
    Inv st2 := by
  cases hstep with
  | stepStorePage s pid mode => exact storePage_inv st hInv s pid mode
  | stepAllocPage =>
    cases ha : (allocPage st).1 with
    | some b => exact (allocPage_some_spec st hInv b ha).1
    | none =>
      obtain ⟨heq, h1, h2, h3⟩ := allocPage_none_spec st ha
      rw [heq]
      exact hInv
  | stepUnpinStorePage b ha hp =>
    have hblt := inv_created_of_pinned st hInv b hp
    have hbf : b ∉ st.freeList := fun hmem => hp (hInv.freePin b hmem)
    have hbl : b ∉ st.lruList := fun hmem => hp (hInv.lruPin b hmem)
    have hlt := hInv.pinLt b
    by_cases h1 : (st.pages b).pinCount = 1
    · rw [unpinStorePage_of_pin_one st b h1]
      refine inv_of_lru_append st hInv b hblt hbf hbl _ rfl rfl rfl rfl
        (fun s2 => hInv.poolPagesNil s2) ?_ ?_
      · intro i hib
        show (updPage st b Page.removePin).pages i = st.pages i
        rw [updPage_pages_ne _ _ _ _ hib]
      · show ((updPage st b Page.removePin).pages b).pinCount = 0
        rw [updPage_pages_self, removePin_pinCount _ hp hlt, h1]
    · rw [unpinStorePage_of_pin_many st b hp h1 hlt]
      refine inv_of_pages_update st hInv b hblt hbf hbl _ rfl rfl rfl rfl
        (fun s2 => hInv.poolPagesNil s2) ?_ ?_
      · intro i hib
        rw [updPage_pages_ne _ _ _ _ hib]
      · rw [updPage_pages_self]
        exact removePin_pinLt _
  | stepUnpinUnassignedPage b ha hp =>
    have hblt := inv_created_of_pinned st hInv b hp
    have hbf : b ∉ st.freeList := fun hmem => hp (hInv.freePin b hmem)
    have hbl : b ∉ st.lruList := fun hmem => hp (hInv.lruPin b hmem)
    have hlt := hInv.pinLt b
    by_cases h1 : (st.pages b).pinCount = 1
    · rw [unpinUnassignedPage_of_pin_one st b h1]
      refine inv_of_free_append st hInv b hblt hbf hbl _ rfl rfl rfl rfl
        (fun s2 => hInv.poolPagesNil s2) ?_ ?_
      · intro i hib
        show (updPage st b Page.removePin).pages i = st.pages i
        rw [updPage_pages_ne _ _ _ _ hib]
      · show ((updPage st b Page.removePin).pages b).pinCount = 0
        rw [updPage_pages_self, removePin_pinCount _ hp hlt, h1]
    · rw [unpinUnassignedPage_of_pin_many st b hp h1 hlt]
      refine inv_of_pages_update st hInv b hblt hbf hbl _ rfl rfl rfl rfl
        (fun s2 => hInv.poolPagesNil s2) ?_ ?_
      · intro i hib
        rw [updPage_pages_ne _ _ _ _ hib]
      · rw [updPage_pages_self]
        exact removePin_pinLt _
  | stepUnassignPageFromStore b ha hp =>
    have hblt := inv_created_of_assigned st hInv b ha
    obtain ⟨hcap, hcnt, hfl, hll, hmap, hpinAll, hne, hassigned, hppNil, herr⟩ :=
      unassignPageFromStore_fields st b hInv.poolPagesNil
    exact inv_of_pin_preserving_update st hInv b hblt _ hcap hcnt hfl hll hppNil
      hne (hpinAll b)
  | stepMarkDirty b flag ha =>
    have hblt := inv_created_of_assigned st hInv b ha
    refine inv_of_pin_preserving_update st hInv b hblt _ rfl rfl rfl rfl
      (fun s2 => hInv.poolPagesNil s2) ?_ ?_
    · intro i hib
      show (updPage st b _).pages i = st.pages i
      exact updPage_pages_ne _ _ _ _ hib
    · show ((updPage st b (fun p => { p with isDirty := flag })).pages b).pinCount =
        (st.pages b).pinCount
      rw [updPage_pages_self]
  | stepStoreClose s =>
    obtain ⟨hcap, hcnt, hfl, hll, hmap, hpages, hpp, herr⟩ :=
      storeClose_fields st s hInv.poolPagesNil
    exact inv_transfer_trivial st _ hInv hcap hcnt hfl hll hpages hpp
  | stepSetAccessError s e =>
    refine inv_transfer_trivial st _ hInv rfl rfl rfl rfl rfl ?_
    intro s2
    show (if s2 = s then { st.stores s2 with accessError := e }
        else st.stores s2).poolPages = []
    by_cases h2 : s2 = s
    · rw [if_pos h2]
      exact hInv.poolPagesNil s2
    · rw [if_neg h2]
      exact hInv.poolPagesNil s2

/-- Every reachable pool state satisfies the invariant. -/
theorem reachable_inv {st : PagePool} (h : Reachable st) : Inv st := by
  induction h with
  | init cap ef =>
    constructor
    · intro b hb
      exact absurd hb (List.not_mem_nil b)
    · intro b hb
      exact absurd hb (List.not_mem_nil b)
    · exact List.nodup_nil
    · intro b hb
      exact absurd hb (List.not_mem_nil b)
    · intro b hb
      exact absurd hb (List.not_mem_nil b)
    · intro b h2
      rfl
    · intro s
      rfl
    · exact Nat.zero_le cap
    · intro b
      show (0 : Nat) < kSizeTMod
      simp [kSizeTMod]
  | step hre hstep ih => exact step_inv ih hstep

/-- C8: in every reachable state, every buffer on the free list or the
LRU list has pin count zero: UnpinStorePage and UnpinUnassignedPage
append a buffer only when their decrement reaches exactly zero, and every
removal from either list inside AllocPage re-pins the buffer first. -/
theorem reachable_listed_pages_unpinned (st : PagePool) (hre : Reachable st)
    (b : BufId) (hmem : b ∈ st.freeList ∨ b ∈ st.lruList) :
    (st.pages b).pinCount = 0 := by
  have hInv := reachable_inv hre
  rcases hmem with h | h
  · exact hInv.freePin b h
  · exact hInv.lruPin b h

/-- Witness for C8: after creating one buffer and unpinning it, the
buffer sits on the free list of a reachable state with pin count zero. -/
theorem reachable_listed_pages_unpinned_witness :
    ((unpinUnassignedPage (allocPage (mkPool 1 efNone)).2 0).pages 0).pinCount =
      0 := by
  have h0 : Reachable (mkPool 1 efNone) := Reachable.init 1 efNone
  have h1 : Reachable (allocPage (mkPool 1 efNone)).2 :=
    Reachable.step h0 (Step.stepAllocPage (mkPool 1 efNone))
  have h2 : Reachable (unpinUnassignedPage (allocPage (mkPool 1 efNone)).2 0) :=
    Reachable.step h1
      (Step.stepUnpinUnassignedPage (allocPage (mkPool 1 efNone)).2 0
        (by decide) (by decide))
  exact reachable_listed_pages_unpinned _ h2 0 (Or.inl (by decide))

/-- C4: in a reachable state AllocPage returns null exactly when the pool
is at capacity with both lists empty; any successful AllocPage yields a
pinned buffer; and a null AllocPage inside StorePage surfaces as
kPoolFull. -/
theorem allocPage_null_iff_full (st : PagePool) (hre : Reachable st) :
    ((allocPage st).1 = none ↔
      st.pageCount = st.pageCapacity ∧ st.freeList = [] ∧ st.lruList = []) ∧
    (∀ b, (allocPage st).1 = some b →
      0 < ((allocPage st).2.pages b).pinCount) ∧
    (∀ s pid mode, mapFind (s, pid) st.pageMap = none →
      (allocPage st).1 = none →
      (storePage st s pid mode).1 = Status.kPoolFull) := by
  have hInv := reachable_inv hre
  refine ⟨⟨?_, ?_⟩, ?_, ?_⟩
  · intro h
    obtain ⟨heq, h1, h2, h3⟩ := allocPage_none_spec st h
    exact ⟨Nat.le_antisymm hInv.countLe (Nat.le_of_not_lt h3), h1, h2⟩
  · rintro ⟨hcnt, h1, h2⟩
    have hnc : ¬st.pageCount < st.pageCapacity := by
      rw [hcnt]
      exact Nat.lt_irrefl _
    simp only [allocPage, h1, h2]
    rw [if_neg hnc]
  · intro b hb
    have h := (allocPage_some_spec st hInv b hb).2.1
    rw [h]
    exact Nat.one_pos
  · intro s pid mode hmiss hnone
    unfold storePage
    rw [hmiss]
    simp only [hnone]

/-- Witness for C4: a fresh pool of capacity zero is reachable, AllocPage
on it returns null, and StorePage reports kPoolFull. -/
theorem allocPage_null_iff_full_witness :
    (allocPage (mkPool 0 efNone)).1 = none ∧
    (storePage (mkPool 0 efNone) 0 0 PageFetchMode.kFetchPageData).1 =
      Status.kPoolFull := by
  have h := allocPage_null_iff_full (mkPool 0 efNone) (Reachable.init 0 efNone)
  have hnone : (allocPage (mkPool 0 efNone)).1 = none :=
    h.1.mpr ⟨rfl, rfl, rfl⟩
  exact ⟨hnone, h.2.2 0 0 PageFetchMode.kFetchPageData rfl hnone⟩

/-- With the store's data file failing, AssignPageToStore in
kFetchPageData mode reports the read error. -/
theorem assignPageToStore_fetch_error (st : PagePool) (b : BufId)
    (s : StoreId) (pid : PageId) (herr : (st.stores s).accessError = true) :
    (assignPageToStore st b s pid PageFetchMode.kFetchPageData).1 =
      Status.kIoError := by
  have hso : storeOf (updPage st b
      (fun p => { p with assigned := some (s, pid) })) b = s := by
    simp [storeOf, updPage_pages_self]
  have hfetch : fetchStorePage (updPage st b
      (fun p => { p with assigned := some (s, pid) })) b
      PageFetchMode.kFetchPageData =
      (Status.kIoError,
        updPage st b (fun p => { p with assigned := some (s, pid) })) := by
    unfold fetchStorePage
    rw [hso]
    unfold readPage
    rw [updPage_stores, if_pos herr]
  unfold assignPageToStore
  simp only [hfetch]
  rw [if_neg (show ¬Status.kIoError = Status.kSuccess by decide)]

/-- C2: a read failure during StorePage (kFetchPageData mode, store read
fails) rolls the operation back completely: kIoError is returned, the
freshly allocated buffer ends unassigned and unpinned on the free list,
the identity map has no (store, page-id) entry, and no pool capacity is
leaked (the pinned-page count is unchanged). -/
theorem storePage_fetch_error_rolls_back (st : PagePool) (s : StoreId)
    (pid : PageId) (b : BufId) (hre : Reachable st)
    (herr : (st.stores s).accessError = true)
    (hmiss : mapFind (s, pid) st.pageMap = none)
    (halloc : (allocPage st).1 = some b) :
    (storePage st s pid PageFetchMode.kFetchPageData).1 = Status.kIoError ∧
    ((storePage st s pid PageFetchMode.kFetchPageData).2.2.pages b).assigned =
      none ∧
    ((storePage st s pid PageFetchMode.kFetchPageData).2.2.pages b).pinCount =
      0 ∧
    b ∈ (storePage st s pid PageFetchMode.kFetchPageData).2.2.freeList ∧
    mapFind (s, pid)
      (storePage st s pid PageFetchMode.kFetchPageData).2.2.pageMap = none ∧
    pinnedPages (storePage st s pid PageFetchMode.kFetchPageData).2.2 =
      pinnedPages st := by
  have hInv := reachable_inv hre
  obtain ⟨hInv2, hpin2, hblt, hbf, hbl, hcap2, herr2, hpinned2, hmap2⟩ :=
    allocPage_some_spec st hInv b halloc
  have herrmid : ((allocPage st).2.stores s).accessError = true := by
    rw [herr2 s]
    exact herr
  have hstat := assignPageToStore_fetch_error (allocPage st).2 b s pid herrmid
  obtain ⟨hInv3, hfail⟩ :=
    assignPageToStore_spec (allocPage st).2 b s pid PageFetchMode.kFetchPageData
      hInv2 hblt hpin2 hbf hbl
  have hne2 : (assignPageToStore (allocPage st).2 b s pid
      PageFetchMode.kFetchPageData).1 ≠ Status.kSuccess := by
    rw [hstat]
    decide
  obtain ⟨hass0, hpin0, hmemf, hmapeq, hpinned3⟩ := hfail hne2
  have hsp : storePage st s pid PageFetchMode.kFetchPageData =
      ((assignPageToStore (allocPage st).2 b s pid
          PageFetchMode.kFetchPageData).1,
        none,
        (assignPageToStore (allocPage st).2 b s pid
          PageFetchMode.kFetchPageData).2) := by
    unfold storePage
    rw [hmiss]
    simp only [halloc]
    rw [if_neg hne2]
  rw [hsp]
  refine ⟨hstat, hass0, hpin0, hmemf, ?_, ?_⟩
  · show mapFind (s, pid) (assignPageToStore (allocPage st).2 b s pid
        PageFetchMode.kFetchPageData).2.pageMap = none
    rw [hmapeq]
    exact hmap2 _ hmiss
  · show pinnedPages (assignPageToStore (allocPage st).2 b s pid
        PageFetchMode.kFetchPageData).2 = pinnedPages st
    have h4 := hpinned3.trans hpinned2
    exact Nat.add_right_cancel h4

/-- Witness for C2: scenario F on a concrete capacity-1 pool whose store
fails every read: StorePage(s, 0, Fetch) returns kIoError and afterwards
allocated = 1, unused = 1, pinned = 0, with no identity-map entry. -/
theorem storePage_fetch_error_rolls_back_witness :
    (storePage (mkPool 1 efAll) 0 0 PageFetchMode.kFetchPageData).1 =
      Status.kIoError ∧
    allocatedPages
      (storePage (mkPool 1 efAll) 0 0 PageFetchMode.kFetchPageData).2.2 = 1 ∧
    unusedPages
      (storePage (mkPool 1 efAll) 0 0 PageFetchMode.kFetchPageData).2.2 = 1 ∧
    pinnedPages
      (storePage (mkPool 1 efAll) 0 0 PageFetchMode.kFetchPageData).2.2 = 0 ∧
    mapFind (0, 0)
      (storePage (mkPool 1 efAll) 0 0 PageFetchMode.kFetchPageData).2.2.pageMap =
      none := by
  have h := storePage_fetch_error_rolls_back (mkPool 1 efAll) 0 0 0
    (Reachable.init 1 efAll) rfl rfl (by decide)
  exact ⟨h.1, by decide, by decide, by decide, h.2.2.2.2.1⟩

end BerryDB
